import Mathlib

/-!
# Verification of the tiny-memory-mcp conversational memory subsystem

This file gives a shallow embedding, in Lean 4, of the conversational memory
core of the repository: the message repository (`src/repositories/message-repository.ts`),
the cosine-similarity SQL function installed by the DuckDB schema
(`src/db/schema.ts` / `NativeDuckDBConnection.initVectorFunctions`),
the placeholder embedding service (`src/services/embedding-service.ts`),
and the MCP controller (`src/services/mcp-controller.ts`).

Modelling conventions:
* Machine doubles are modelled as rationals (`ℚ`) for DB-stored vectors, and as
  real numbers (`ℝ`) for the trigonometric placeholder embedding.
* The two persisted row sets (conversations, messages) are lists; SQL queries
  against them are modelled by executable list functions that transcribe the
  SQL text of the source (filter for WHERE, stable sort for ORDER BY,
  `List.take` for LIMIT).
* DuckDB maps division by zero to NULL, and SUM over an empty series to NULL,
  so `cosine_similarity` returns an `Option`: `none` models a NULL similarity.
* `async`/`await` sequencing is modelled by ordinary sequential state passing;
  the fire-and-forget embedding step of `addMessage` is modelled by a boolean
  `embedOk` parameter selecting whether the background save succeeds.
* UUID generation and wall-clock timestamps are modelled by a deterministic
  counter and a logical clock carried in the database state.
* The `ConversationRepository` implementation file is not part of the sources;
  its two operations used by the controller are modelled from the spec and
  marked as such below.
-/

namespace TinyMemory

/-- Message roles, from the `"user" | "assistant" | "system"` union type. -/
inductive Role where
  | user
  | assistant
  | system
deriving DecidableEq, Repr

/-- A row of the `messages` relation (schema in `src/db/schema.ts`):
`(message_id, conversation_id, timestamp, role, content, metadata, embedding DOUBLE[])`.
The embedding column is nullable. -/
structure Message where
  message_id : String
  conversation_id : String
  timestamp : Nat
  role : Role
  content : String
  metadata : List (String × String)
  embedding : Option (List ℚ)
deriving DecidableEq, Repr

/-- A row of the `conversations` relation:
`(conversation_id, title, created_at, updated_at, metadata)`. -/
structure Conversation where
  conversation_id : String
  title : String
  created_at : Nat
  updated_at : Nat
  metadata : List (String × String)
deriving DecidableEq, Repr

/-- The persistent database state: the two row sets, plus a deterministic
id-generation counter (modelling `generateId()` / `crypto.randomUUID()`) and a
logical clock (modelling `new Date()`). -/
structure DBState where
  conversations : List Conversation
  messages : List Message
  nextId : Nat
  clock : Nat
deriving DecidableEq, Repr

/-! ## Cosine similarity (the SQL macro from `initVectorFunctions`)

The installed DuckDB function is

```
CREATE OR REPLACE FUNCTION cosine_similarity(a DOUBLE[], b DOUBLE[]) RETURNS DOUBLE AS '
  SELECT SUM(a[i] * b[i]) / (SQRT(SUM(a[i] * a[i])) * SQRT(SUM(b[i] * b[i])))
  FROM generate_series(1, LEAST(LENGTH(a), LENGTH(b))) AS t(i)
';
```

All three sums range over `i = 1 .. min(len a, len b)`, i.e. over the common
prefix of the two vectors.  The value is NULL exactly when the division has a
zero denominator (DuckDB maps division by zero to NULL) or when the series is
empty (SUM over no rows is NULL); both cases coincide with one of the two
prefix sums of squares being zero.  To keep the score exact and decidable we
record the three rational sums instead of taking square roots; `SimScore.val`
below interprets them as the real number the SQL computes. -/

/-- The numerator and the two squared norm factors of a non-NULL
`cosine_similarity` result: the value denoted is `dot / (sqrt na * sqrt nb)`.
Positivity of the two squared norms is recorded so that score comparisons are
well defined. -/
structure SimScore where
  dot : ℚ
  na : ℚ
  nb : ℚ
  na_pos : 0 < na
  nb_pos : 0 < nb

instance : DecidableEq SimScore := fun s t =>
  decidable_of_iff (s.dot = t.dot ∧ s.na = t.na ∧ s.nb = t.nb)
    (by cases s; cases t; simp)

/-- Sum of squares of the entries of a list of rationals. -/
def sumSq (l : List ℚ) : ℚ := (l.map fun x => x * x).sum

/-- The SQL function `cosine_similarity(a, b)`: all sums range over the common
prefix `i = 1 .. LEAST(LENGTH(a), LENGTH(b))`.  The guard `0 < na ∧ 0 < nb` is
equivalent to the SQL's non-NULL condition `¬(na = 0 ∨ nb = 0)` because sums
of squares are nonnegative (`cosine_similarity_none_iff` below makes this
precise); `none` models the NULL result. -/
def cosine_similarity (a b : List ℚ) : Option SimScore :=
  let n := min a.length b.length
  let aP := a.take n
  let bP := b.take n
  let dot := (List.zipWith (fun x y => x * y) aP bP).sum
  let na := sumSq aP
  let nb := sumSq bP
  if h : 0 < na ∧ 0 < nb then
    some { dot := dot, na := na, nb := nb, na_pos := h.1, nb_pos := h.2 }
  else none

/-- The real number a `SimScore` denotes: `dot / (sqrt na * sqrt nb)`. -/
noncomputable def SimScore.val (s : SimScore) : ℝ :=
  (s.dot : ℝ) / (Real.sqrt (s.na : ℝ) * Real.sqrt (s.nb : ℝ))

/-- Decides `t.val ≤ s.val` (that is, "`s` sorts no later than `t` in
descending score order") by sign analysis and cross-multiplied squares, so the
comparison stays in `ℚ`. -/
def simGe (s t : SimScore) : Bool :=
  if 0 ≤ s.dot then
    if 0 ≤ t.dot then decide (t.dot * t.dot * (s.na * s.nb) ≤ s.dot * s.dot * (t.na * t.nb))
    else true
  else
    if 0 ≤ t.dot then false
    else decide (s.dot * s.dot * (t.na * t.nb) ≤ t.dot * t.dot * (s.na * s.nb))

/-! ## ORDER BY / LIMIT machinery

`ORDER BY similarity DESC` is modelled by a stable insertion sort over the
scored rows.  `none` (NULL similarity) sorts after every non-NULL score,
matching DuckDB's default NULLS LAST ordering; rows the comparator considers
equal keep their stored order, since `ORDER BY` has no further sort key. -/

/-- Comparator for a scored row pair: `rowLe r1 r2` means `r1` may appear no
later than `r2` in the query output. -/
def rowLe (r1 r2 : Message × Option SimScore) : Bool :=
  match r1.2, r2.2 with
  | some s, some t => simGe s t
  | some _, none => true
  | none, some _ => false
  | none, none => true

/-- The intended meaning of the output order: descending real-valued score,
NULL scores last. -/
def scoreRel : Option SimScore → Option SimScore → Prop
  | some s, some t => t.val ≤ s.val
  | some _, none => True
  | none, some _ => False
  | none, none => True

/-- Stable ordered insertion: the new element goes before the first element it
compares no later than. -/
def insertOrd (le : α → α → Bool) (x : α) : List α → List α
  | [] => [x]
  | y :: ys => if le x y then x :: y :: ys else y :: insertOrd le x ys

/-- Stable insertion sort (models the SQL ORDER BY). -/
def sortBy (le : α → α → Bool) : List α → List α
  | [] => []
  | x :: xs => insertOrd le x (sortBy le xs)

/-! ## MessageRepository (`src/repositories/message-repository.ts`) -/

/-- `MessageRepository.createMessage`: generates an id and a timestamp, runs
`INSERT INTO messages (message_id, conversation_id, timestamp, role, content,
metadata, embedding) VALUES (...)`, then
`UPDATE conversations SET updated_at = ? WHERE conversation_id = ?`,
and returns the generated message id.  No existence check is performed on
`conversationId`; the insert happens unconditionally (the in-memory backend
`FakeDatabaseConnection` stores the row as given, and referential integrity is
left to the underlying database's FOREIGN KEY constraint). -/
def createMessage (st : DBState) (conversationId : String) (role : Role)
    (content : String) (metadata : List (String × String))
    (embedding : Option (List ℚ)) : String × DBState :=
  let messageId := "uuid-" ++ toString st.nextId
  let now := st.clock
  let msg : Message :=
    { message_id := messageId, conversation_id := conversationId, timestamp := now
      role := role, content := content, metadata := metadata, embedding := embedding }
  let conversations := st.conversations.map fun c =>
    if c.conversation_id = conversationId then
      { c with updated_at := now }
    else c
  (messageId,
   { conversations := conversations, messages := st.messages ++ [msg]
     nextId := st.nextId + 1, clock := st.clock + 1 })

/-- `MessageRepository.getMessagesByConversation`:
`SELECT * FROM messages WHERE conversation_id = ? ORDER BY timestamp`. -/
def getMessagesByConversation (st : DBState) (conversationId : String) : List Message :=
  sortBy (fun m1 m2 => decide (m1.timestamp ≤ m2.timestamp))
    (st.messages.filter fun m => m.conversation_id = conversationId)

/-- `MessageRepository.searchSimilarMessages`:
`SELECT m.*, cosine_similarity(m.embedding, ?) as similarity FROM messages m
WHERE m.embedding IS NOT NULL ORDER BY similarity DESC LIMIT ?`. -/
def searchSimilarMessages (messages : List Message) (embedding : List ℚ)
    (limit : Nat) : List (Message × Option SimScore) :=
  let rows := (messages.filter fun m => m.embedding.isSome).map fun m =>
    (m, match m.embedding with
        | some e => cosine_similarity e embedding
        | none => none)
  (sortBy rowLe rows).take limit

/-- `MessageRepository.saveEmbedding`:
`UPDATE messages SET embedding = ? WHERE message_id = ?`. -/
def saveEmbedding (st : DBState) (messageId : String) (embedding : List ℚ) : DBState :=
  { st with
    messages := st.messages.map fun m =>
      if m.message_id = messageId then { m with embedding := some embedding } else m }

/-! ## EmbeddingService (`src/services/embedding-service.ts`)

The placeholder embedding is `sin(hash * (i + 1)) * 0.5` for `i = 0 .. 383`,
normalized by `val / (magnitude || 1)`.  Doubles are modelled as reals; the
string is modelled as its sequence of code points (all inputs considered here
are in the Basic Multilingual Plane, where JS UTF-16 code units coincide with
code points). -/

/-- JS `ToInt32` wrap-around (the `hash & hash` step). -/
def toInt32 (n : Int) : Int := (n + 2 ^ 31) % 2 ^ 32 - 2 ^ 31

/-- One loop iteration of `simpleHash`:
`hash = (hash << 5) - hash + char; hash = hash & hash`. -/
def hashStep (hash : Int) (char : Nat) : Int :=
  toInt32 (toInt32 (hash * 32) - hash + char)

/-- `EmbeddingService.simpleHash`: the 32-bit string hash, made nonnegative
with `Math.abs`. -/
def simpleHash (str : String) : Int :=
  |str.data.foldl (fun h c => hashStep h c.toNat) 0|

/-- Squared L2 norm of a real vector (`reduce((sum, val) => sum + val * val, 0)`). -/
noncomputable def normSqR (l : List ℝ) : ℝ := (l.map fun v => v * v).sum

/-- The local `embedding` array of `createPlaceholderEmbedding` before
normalization: `Math.sin(hash * (i + 1)) * 0.5` for `i = 0 .. 383`. -/
noncomputable def rawEmbedding (text : String) : List ℝ :=
  (List.range 384).map fun (i : ℕ) =>
    Real.sin ((simpleHash text : ℝ) * ((i : ℝ) + 1)) * 0.5

/-- The local `magnitude` of `createPlaceholderEmbedding`:
`Math.sqrt(embedding.reduce((sum, val) => sum + val * val, 0))`. -/
noncomputable def rawMagnitude (text : String) : ℝ :=
  Real.sqrt (normSqR (rawEmbedding text))

open Classical in
/-- `EmbeddingService.createPlaceholderEmbedding`: the raw vector above,
with every entry divided by `magnitude || 1` (`1` exactly when the magnitude
is zero). -/
noncomputable def createPlaceholderEmbedding (text : String) : List ℝ :=
  (rawEmbedding text).map fun v =>
    v / (if rawMagnitude text = 0 then 1 else rawMagnitude text)

/-- `EmbeddingService.generateEmbedding` just calls the placeholder. -/
noncomputable def generateEmbedding (text : String) : List ℝ :=
  createPlaceholderEmbedding text

/-! ## MCPController (`src/services/mcp-controller.ts`)

The controller is parametrized by an `embed` function `String → List ℚ`,
modelling the pluggable `EmbeddingService.generateEmbedding` used on the
database path (stored vectors are `DOUBLE[]`, modelled as `List ℚ`).  The
`activeConversations : Map<string, string>` is an association list with
first-match lookup; `Map.set` is modelled by shadowing. -/

/-- The controller state: the database plus the in-process
`activeConversations` user-to-conversation map. -/
structure MCPState where
  db : DBState
  activeConversations : List (String × String)
deriving DecidableEq, Repr

/-- Modelled from the spec: the `ConversationRepository.createConversation`
implementation file is not among the sources (only its tests and callers are).
Spec §4.1: `create(title, metadata) -> id` persists a conversation record with
a generated id and creation/update timestamps. -/
def createConversation (st : DBState) (title : String)
    (metadata : List (String × String)) : String × DBState :=
  let conversationId := "uuid-" ++ toString st.nextId
  let now := st.clock
  (conversationId,
   { st with
     conversations := st.conversations ++
       [{ conversation_id := conversationId, title := title, created_at := now
          updated_at := now, metadata := metadata }]
     nextId := st.nextId + 1, clock := st.clock + 1 })

/-- Modelled from the spec: `ConversationRepository.getConversation` is not
among the sources.  Spec §4.1: `get(id) -> Conversation | not-found`, a lookup
of the row keyed by the conversation id. -/
def getConversation (st : DBState) (conversationId : String) : Option Conversation :=
  st.conversations.find? fun c => c.conversation_id = conversationId

/-- `Map.set` on the `activeConversations` map: unconditional overwrite,
modelled by shadowing (lookup returns the first match). -/
def setActive (m : List (String × String)) (userId conversationId : String) :
    List (String × String) :=
  (userId, conversationId) :: m

/-- `MCPController.startConversation`: creates a conversation whose metadata
merges the caller's metadata with `userId` and `startedAt`, records it as the
user's active conversation, and returns its id. -/
def startConversation (st : MCPState) (userId title : String)
    (metadata : List (String × String)) : String × MCPState :=
  let conversationMetadata :=
    metadata ++ [("userId", userId), ("startedAt", toString st.db.clock)]
  let r := createConversation st.db title conversationMetadata
  (r.1, { db := r.2, activeConversations := setActive st.activeConversations userId r.1 })

/-- `MCPController.addMessage`: looks up the user's active conversation,
lazily starting one (with the default title `"新しい会話"`) when there is
none; persists the message; then fires the embedding generation and save.
The final step is fire-and-forget (`.catch` logs and swallows any failure):
`embedOk = false` models a failed embedding step, `embedOk = true` a completed
one. -/
def addMessage (embed : String → List ℚ) (st : MCPState) (userId : String)
    (role : Role) (content : String) (metadata : List (String × String))
    (embedOk : Bool) : String × MCPState :=
  let c :=
    match List.lookup userId st.activeConversations with
    | some conversationId => (conversationId, st)
    | none => startConversation st userId "新しい会話" []
  let m := createMessage c.2.db c.1 role content metadata none
  let db3 := if embedOk then saveEmbedding m.2 m.1 (embed content) else m.2
  (m.1, { db := db3, activeConversations := c.2.activeConversations })

/-- `MCPController.addUserMessage`: `addMessage` with role `"user"`. -/
def addUserMessage (embed : String → List ℚ) (st : MCPState) (userId content : String)
    (metadata : List (String × String)) (embedOk : Bool) : String × MCPState :=
  addMessage embed st userId Role.user content metadata embedOk

/-- `MCPController.addAssistantMessage`: `addMessage` with role `"assistant"`. -/
def addAssistantMessage (embed : String → List ℚ) (st : MCPState) (userId content : String)
    (metadata : List (String × String)) (embedOk : Bool) : String × MCPState :=
  addMessage embed st userId Role.assistant content metadata embedOk

/-- `EmbeddingService.findSimilarMessages`: embeds the query and delegates to
`searchSimilarMessages`. -/
def findSimilarMessages (embed : String → List ℚ) (db : DBState) (query : String)
    (limit : Nat) : List (Message × Option SimScore) :=
  searchSimilarMessages db.messages (embed query) limit

/-- `Array.findIndex` composed with the `idx >= 0 ? idx : undefined` mapping
done at the call site in `getConversationByReference`. -/
def findIndex (p : α → Bool) : List α → Option Nat
  | [] => none
  | x :: xs => if p x then some 0 else (findIndex p xs).map (· + 1)

/-- The result shape of `getConversationByReference`; a missing
`matchedMessageIndex` models the `undefined` field. -/
structure RefResult where
  conversation : Conversation
  messages : List Message
  matchedMessageIndex : Option Nat
deriving DecidableEq, Repr

/-- `MCPController.getConversationByReference`: similarity search with
`limit = 1`; `none` when the search returns nothing or the owning conversation
is absent; otherwise the conversation, its full ordered message list, and the
index of the matched message in that list (absent if the id is not found). -/
def getConversationByReference (embed : String → List ℚ) (st : MCPState)
    (referenceText : String) : Option RefResult :=
  match findSimilarMessages embed st.db referenceText 1 with
  | [] => none
  | topRow :: _ =>
    let topMessage := topRow.1
    let conversationId := topMessage.conversation_id
    match getConversation st.db conversationId with
    | none => none
    | some conversation =>
      let messages := getMessagesByConversation st.db conversationId
      some { conversation := conversation, messages := messages
             matchedMessageIndex :=
               findIndex (fun msg => msg.message_id = topMessage.message_id) messages }

/-- The result shape of `rememberConversationWithContext`. -/
structure ContextResult where
  conversation : Conversation
  messages : List Message
  beforeContext : List Message
  afterContext : List Message
  matchedMessage : Message
deriving DecidableEq, Repr

/-- `MCPController.rememberConversationWithContext`: `none` when
`getConversationByReference` fails or reports no matched index; otherwise
slices `messages.slice(startIndex, idx)` and `messages.slice(idx + 1,
endIndex + 1)` with `startIndex = max(0, idx - w)` (here truncated `Nat`
subtraction) and `endIndex = min(len - 1, idx + w)`.  JS `slice(s, e)` is
`(drop s).take (e - s)`.  The inner `none` branch of the indexing is
unreachable, since the matched index always lies in bounds
(`findIndex_lt_length` below). -/
def rememberConversationWithContext (embed : String → List ℚ) (st : MCPState)
    (query : String) (contextWindowSize : Nat) : Option ContextResult :=
  match getConversationByReference embed st query with
  | none => none
  | some r =>
    match r.matchedMessageIndex with
    | none => none
    | some idx =>
      match r.messages[idx]? with
      | none => none
      | some matchedMessage =>
        let startIndex := idx - contextWindowSize
        let endIndex := min (r.messages.length - 1) (idx + contextWindowSize)
        let beforeContext := (r.messages.drop startIndex).take (idx - startIndex)
        let afterContext := (r.messages.drop (idx + 1)).take (endIndex + 1 - (idx + 1))
        some { conversation := r.conversation, messages := r.messages
               beforeContext := beforeContext, afterContext := afterContext
               matchedMessage := matchedMessage }

/-! ## Support lemmas -/

theorem sumSq_nonneg (l : List ℚ) : 0 ≤ sumSq l := by
  induction l with
  | nil => simp [sumSq]
  | cons x xs ih =>
    simp only [sumSq, List.map_cons, List.sum_cons]
    have : 0 ≤ x * x := mul_self_nonneg x
    simpa [sumSq] using add_nonneg this ih

/-- The dite guard of `cosine_similarity` coincides with the SQL NULL
condition `na = 0 ∨ nb = 0` on the prefix sums of squares. -/
theorem cosine_similarity_none_iff (a b : List ℚ) :
    cosine_similarity a b = none ↔
      sumSq (a.take (min a.length b.length)) = 0 ∨
        sumSq (b.take (min a.length b.length)) = 0 := by
  unfold cosine_similarity
  dsimp only
  split
  · rename_i h
    simp only [reduceCtorEq, false_iff]
    push_neg
    exact ⟨ne_of_gt h.1, ne_of_gt h.2⟩
  · rename_i h
    simp only [true_iff]
    rcases not_and_or.mp h with h1 | h1
    · exact Or.inl (le_antisymm (not_lt.mp h1) (sumSq_nonneg _))
    · exact Or.inr (le_antisymm (not_lt.mp h1) (sumSq_nonneg _))

theorem SimScore.val_eq (s : SimScore) :
    s.val = (s.dot : ℝ) / Real.sqrt ((s.na : ℝ) * (s.nb : ℝ)) := by
  unfold SimScore.val
  rw [Real.sqrt_mul (by exact_mod_cast le_of_lt s.na_pos)]

theorem mul_sqrt_le_mul_sqrt {x y A B : ℝ} (hx : 0 ≤ x) (hy : 0 ≤ y)
    (_hA : 0 ≤ A) (h : x * x * A ≤ y * y * B) : x * Real.sqrt A ≤ y * Real.sqrt B := by
  have e1 : x * Real.sqrt A = Real.sqrt (x * x * A) := by
    rw [Real.sqrt_mul (mul_self_nonneg x), Real.sqrt_mul_self hx]
  have e2 : y * Real.sqrt B = Real.sqrt (y * y * B) := by
    rw [Real.sqrt_mul (mul_self_nonneg y), Real.sqrt_mul_self hy]
  rw [e1, e2]
  exact Real.sqrt_le_sqrt h

theorem mul_sqrt_lt_mul_sqrt {x y A B : ℝ} (hx : 0 ≤ x) (hy : 0 ≤ y)
    (_hA : 0 ≤ A) (h : x * x * A < y * y * B) : x * Real.sqrt A < y * Real.sqrt B := by
  have e1 : x * Real.sqrt A = Real.sqrt (x * x * A) := by
    rw [Real.sqrt_mul (mul_self_nonneg x), Real.sqrt_mul_self hx]
  have e2 : y * Real.sqrt B = Real.sqrt (y * y * B) := by
    rw [Real.sqrt_mul (mul_self_nonneg y), Real.sqrt_mul_self hy]
  rw [e1, e2]
  exact Real.sqrt_lt_sqrt (by nlinarith) h

theorem simGe_total (s t : SimScore) : simGe s t = true ∨ simGe t s = true := by
  unfold simGe
  rcases le_total (t.dot * t.dot * (s.na * s.nb)) (s.dot * s.dot * (t.na * t.nb)) with h | h <;>
    by_cases h1 : 0 ≤ s.dot <;> by_cases h2 : 0 ≤ t.dot <;> simp [h1, h2, h]

/-- The rational comparison `simGe` decides the real score ordering. -/
theorem simGe_iff_val_le (s t : SimScore) : simGe s t = true ↔ t.val ≤ s.val := by
  have hM1 : (0 : ℝ) < (s.na : ℝ) * (s.nb : ℝ) := by
    have h1 : (0 : ℝ) < (s.na : ℝ) := by exact_mod_cast s.na_pos
    have h2 : (0 : ℝ) < (s.nb : ℝ) := by exact_mod_cast s.nb_pos
    exact mul_pos h1 h2
  have hM2 : (0 : ℝ) < (t.na : ℝ) * (t.nb : ℝ) := by
    have h1 : (0 : ℝ) < (t.na : ℝ) := by exact_mod_cast t.na_pos
    have h2 : (0 : ℝ) < (t.nb : ℝ) := by exact_mod_cast t.nb_pos
    exact mul_pos h1 h2
  have hs1 : 0 < Real.sqrt ((s.na : ℝ) * (s.nb : ℝ)) := Real.sqrt_pos.mpr hM1
  have ht1 : 0 < Real.sqrt ((t.na : ℝ) * (t.nb : ℝ)) := Real.sqrt_pos.mpr hM2
  rw [SimScore.val_eq, SimScore.val_eq, div_le_div_iff₀ ht1 hs1]
  by_cases h1 : 0 ≤ s.dot <;> by_cases h2 : 0 ≤ t.dot
  · -- both numerators nonnegative: compare cross-multiplied squares
    simp only [simGe, h1, h2, if_true, decide_eq_true_eq]
    constructor
    · intro hq
      exact mul_sqrt_le_mul_sqrt (by exact_mod_cast h2) (by exact_mod_cast h1)
        (le_of_lt hM1) (by exact_mod_cast hq)
    · intro hr
      by_contra hq
      push_neg at hq
      have : (s.dot : ℝ) * Real.sqrt ((t.na : ℝ) * (t.nb : ℝ)) <
          (t.dot : ℝ) * Real.sqrt ((s.na : ℝ) * (s.nb : ℝ)) :=
        mul_sqrt_lt_mul_sqrt (by exact_mod_cast h1) (by exact_mod_cast h2)
          (le_of_lt hM2) (by exact_mod_cast hq)
      linarith
  · -- s nonnegative, t negative: t's score is below zero, s's is not
    simp only [simGe, h1, h2, if_true, if_false]
    have hd2 : (t.dot : ℝ) < 0 := by exact_mod_cast lt_of_not_le h2
    have hd1 : (0 : ℝ) ≤ (s.dot : ℝ) := by exact_mod_cast h1
    constructor
    · intro _
      have l1 : (t.dot : ℝ) * Real.sqrt ((s.na : ℝ) * (s.nb : ℝ)) ≤ 0 :=
        le_of_lt (mul_neg_of_neg_of_pos hd2 hs1)
      have l2 : 0 ≤ (s.dot : ℝ) * Real.sqrt ((t.na : ℝ) * (t.nb : ℝ)) :=
        mul_nonneg hd1 (le_of_lt ht1)
      linarith
    · intro _; trivial
  · -- s negative, t nonnegative: s's score is below zero, t's is not
    simp only [simGe, h1, h2, if_false, if_true]
    have hd1 : (s.dot : ℝ) < 0 := by exact_mod_cast lt_of_not_le h1
    have hd2 : (0 : ℝ) ≤ (t.dot : ℝ) := by exact_mod_cast h2
    constructor
    · intro hfalse; exact absurd hfalse (by simp)
    · intro hr
      exfalso
      have l1 : (s.dot : ℝ) * Real.sqrt ((t.na : ℝ) * (t.nb : ℝ)) < 0 :=
        mul_neg_of_neg_of_pos hd1 ht1
      have l2 : 0 ≤ (t.dot : ℝ) * Real.sqrt ((s.na : ℝ) * (s.nb : ℝ)) :=
        mul_nonneg hd2 (le_of_lt hs1)
      linarith
  · -- both numerators negative: compare negated values
    simp only [simGe, h1, h2, if_false, decide_eq_true_eq]
    have hd1 : (s.dot : ℝ) < 0 := by exact_mod_cast lt_of_not_le h1
    have hd2 : (t.dot : ℝ) < 0 := by exact_mod_cast lt_of_not_le h2
    constructor
    · intro hq
      have key : (-(s.dot : ℝ)) * Real.sqrt ((t.na : ℝ) * (t.nb : ℝ)) ≤
          (-(t.dot : ℝ)) * Real.sqrt ((s.na : ℝ) * (s.nb : ℝ)) := by
        apply mul_sqrt_le_mul_sqrt (by linarith) (by linarith) (le_of_lt hM2)
        have hq' : (s.dot : ℝ) * (s.dot : ℝ) * ((t.na : ℝ) * (t.nb : ℝ)) ≤
            (t.dot : ℝ) * (t.dot : ℝ) * ((s.na : ℝ) * (s.nb : ℝ)) := by exact_mod_cast hq
        nlinarith [hq']
      linarith
    · intro hr
      by_contra hq
      push_neg at hq
      have hq' : (t.dot : ℝ) * (t.dot : ℝ) * ((s.na : ℝ) * (s.nb : ℝ)) <
          (s.dot : ℝ) * (s.dot : ℝ) * ((t.na : ℝ) * (t.nb : ℝ)) := by exact_mod_cast hq
      have key : (-(t.dot : ℝ)) * Real.sqrt ((s.na : ℝ) * (s.nb : ℝ)) <
          (-(s.dot : ℝ)) * Real.sqrt ((t.na : ℝ) * (t.nb : ℝ)) := by
        apply mul_sqrt_lt_mul_sqrt (by linarith) (by linarith) (le_of_lt hM1)
        nlinarith [hq']
      linarith

theorem simGe_trans {s t u : SimScore} (h1 : simGe s t = true) (h2 : simGe t u = true) :
    simGe s u = true :=
  (simGe_iff_val_le s u).mpr
    (le_trans ((simGe_iff_val_le t u).mp h2) ((simGe_iff_val_le s t).mp h1))

theorem rowLe_total (r1 r2 : Message × Option SimScore) :
    rowLe r1 r2 = true ∨ rowLe r2 r1 = true := by
  unfold rowLe
  rcases h1 : r1.2 with _ | s <;> rcases h2 : r2.2 with _ | t <;> simp
  exact simGe_total s t

theorem rowLe_trans {r1 r2 r3 : Message × Option SimScore}
    (h1 : rowLe r1 r2 = true) (h2 : rowLe r2 r3 = true) : rowLe r1 r3 = true := by
  unfold rowLe at *
  rcases e1 : r1.2 with _ | s <;> rcases e2 : r2.2 with _ | t <;>
    rcases e3 : r3.2 with _ | u <;> simp_all
  exact simGe_trans h1 h2

theorem rowLe_scoreRel {r1 r2 : Message × Option SimScore}
    (h : rowLe r1 r2 = true) : scoreRel r1.2 r2.2 := by
  unfold rowLe at h
  rcases e1 : r1.2 with _ | s <;> rcases e2 : r2.2 with _ | t <;>
    simp_all [scoreRel]
  exact (simGe_iff_val_le s t).mp h

theorem insertOrd_perm (le : α → α → Bool) (x : α) (l : List α) :
    List.Perm (insertOrd le x l) (x :: l) := by
  induction l with
  | nil => simp [insertOrd]
  | cons y ys ih =>
    simp only [insertOrd]
    split
    · exact List.Perm.refl _
    · exact ((ih.cons y).trans (List.Perm.swap x y ys))

theorem sortBy_perm (le : α → α → Bool) (l : List α) : List.Perm (sortBy le l) l := by
  induction l with
  | nil => simp [sortBy]
  | cons x xs ih => exact (insertOrd_perm le x (sortBy le xs)).trans (ih.cons x)

theorem mem_insertOrd {le : α → α → Bool} {x z : α} {l : List α} :
    z ∈ insertOrd le x l ↔ z = x ∨ z ∈ l :=
  ⟨fun h => by
    have := (insertOrd_perm le x l).mem_iff.mp h
    simpa using this,
   fun h => (insertOrd_perm le x l).mem_iff.mpr (by simpa using h)⟩

theorem pairwise_insertOrd {le : α → α → Bool}
    (htot : ∀ a b : α, le a b = true ∨ le b a = true)
    (htrans : ∀ {a b c : α}, le a b = true → le b c = true → le a c = true)
    (x : α) {l : List α} (h : l.Pairwise fun a b => le a b = true) :
    (insertOrd le x l).Pairwise fun a b => le a b = true := by
  induction l with
  | nil => simp [insertOrd]
  | cons y ys ih =>
    simp only [insertOrd]
    rcases List.pairwise_cons.mp h with ⟨hy, hys⟩
    split
    · rename_i hxy
      refine List.pairwise_cons.mpr ⟨?_, h⟩
      intro z hz
      rcases List.mem_cons.mp hz with rfl | hz
      · exact hxy
      · exact htrans hxy (hy z hz)
    · rename_i hxy
      have hyx : le y x = true := by
        rcases htot x y with h' | h'
        · exact absurd h' hxy
        · exact h'
      refine List.pairwise_cons.mpr ⟨?_, ih hys⟩
      intro z hz
      rcases mem_insertOrd.mp hz with rfl | hz
      · exact hyx
      · exact hy z hz

theorem pairwise_sortBy {le : α → α → Bool}
    (htot : ∀ a b : α, le a b = true ∨ le b a = true)
    (htrans : ∀ {a b c : α}, le a b = true → le b c = true → le a c = true)
    (l : List α) : (sortBy le l).Pairwise fun a b => le a b = true := by
  induction l with
  | nil => simp [sortBy]
  | cons x xs ih => exact pairwise_insertOrd htot htrans x ih

theorem searchSimilarMessages_length_le (messages : List Message)
    (embedding : List ℚ) (limit : Nat) :
    (searchSimilarMessages messages embedding limit).length ≤ limit := by
  unfold searchSimilarMessages
  simp

theorem searchSimilarMessages_pairwise (messages : List Message)
    (embedding : List ℚ) (limit : Nat) :
    (searchSimilarMessages messages embedding limit).Pairwise
      fun r1 r2 => scoreRel r1.2 r2.2 := by
  unfold searchSimilarMessages
  have hp := pairwise_sortBy rowLe_total (fun h1 h2 => rowLe_trans h1 h2)
    ((messages.filter fun m => m.embedding.isSome).map fun m =>
      (m, match m.embedding with
          | some e => cosine_similarity e embedding
          | none => none))
  have hs := List.Pairwise.sublist (List.take_sublist limit _) hp
  exact hs.imp fun h => rowLe_scoreRel h

theorem mem_searchSimilarMessages {messages : List Message} {embedding : List ℚ}
    {limit : Nat} {r : Message × Option SimScore}
    (h : r ∈ searchSimilarMessages messages embedding limit) :
    r.1 ∈ messages ∧ r.1.embedding.isSome = true ∧
      (∀ e, r.1.embedding = some e → r.2 = cosine_similarity e embedding) := by
  unfold searchSimilarMessages at h
  have h1 := (sortBy_perm rowLe _).mem_iff.mp (List.mem_of_mem_take h)
  rcases List.mem_map.mp h1 with ⟨m, hm, hr⟩
  rcases List.mem_filter.mp hm with ⟨hmem, hsome⟩
  subst hr
  refine ⟨hmem, hsome, ?_⟩
  intro e he
  simp only at he
  simp [he]

theorem normSqR_nonneg (l : List ℝ) : 0 ≤ normSqR l := by
  induction l with
  | nil => simp [normSqR]
  | cons x xs ih =>
    simp only [normSqR, List.map_cons, List.sum_cons]
    have : 0 ≤ x * x := mul_self_nonneg x
    simpa [normSqR] using add_nonneg this ih

theorem normSqR_map_div (l : List ℝ) (c : ℝ) :
    normSqR (l.map fun v => v / c) = normSqR l / (c * c) := by
  induction l with
  | nil => simp [normSqR]
  | cons x xs ih =>
    simp only [normSqR, List.map_cons, List.sum_cons] at *
    rw [ih]
    by_cases hc : c = 0
    · simp [hc]
    · field_simp

/-- `sin n ≠ 0` for a nonzero integer argument, since `π` is irrational. -/
theorem sin_intCast_ne_zero {n : Int} (hn : n ≠ 0) : Real.sin (n : ℝ) ≠ 0 := by
  intro hsin
  rcases Real.sin_eq_zero_iff.mp hsin with ⟨k, hk⟩
  have hk0 : k ≠ 0 := by
    rintro rfl
    simp at hk
    exact hn (by exact_mod_cast hk.symm)
  have hkR : (k : ℝ) ≠ 0 := Int.cast_ne_zero.mpr hk0
  have hpi : Real.pi = ((((n : ℚ) / (k : ℚ)) : ℚ) : ℝ) := by
    push_cast
    field_simp
    linarith [hk]
  exact (Rat.not_irrational _) (hpi ▸ irrational_pi)

/-- A nonzero hash makes the raw placeholder vector nonzero: its first entry
is `sin(hash) * 0.5`. -/
theorem normSqR_rawEmbedding_pos {text : String} (h : simpleHash text ≠ 0) :
    0 < normSqR (rawEmbedding text) := by
  have hs : Real.sin ((simpleHash text : ℝ)) ≠ 0 := sin_intCast_ne_zero h
  set e : ℝ := Real.sin ((simpleHash text : ℝ) * (((0 : ℕ) : ℝ) + 1)) * 0.5 with he
  have he' : e = Real.sin ((simpleHash text : ℝ)) * 0.5 := by
    simp [he]
  have hepos : 0 < e * e := by
    rw [he']
    have : Real.sin ((simpleHash text : ℝ)) * 0.5 ≠ 0 := by
      intro h0
      rcases mul_eq_zero.mp h0 with h0 | h0
      · exact hs h0
      · norm_num at h0
    exact mul_self_pos.mpr this
  have hmem : e ∈ rawEmbedding text := by
    unfold rawEmbedding
    exact List.mem_map_of_mem _ (List.mem_range.mpr (by norm_num))
  have hmem2 : e * e ∈ (rawEmbedding text).map fun v => v * v :=
    List.mem_map_of_mem _ hmem
  have hle : e * e ≤ normSqR (rawEmbedding text) := by
    unfold normSqR
    exact List.single_le_sum (fun x hx => by
      rcases List.mem_map.mp hx with ⟨v, _, rfl⟩
      exact mul_self_nonneg v) _ hmem2
  linarith

/-- When the hash is nonzero, the placeholder embedding really is normalized:
its squared L2 norm is exactly 1. -/
theorem normSqR_createPlaceholderEmbedding {text : String}
    (h : simpleHash text ≠ 0) : normSqR (createPlaceholderEmbedding text) = 1 := by
  have hpos := normSqR_rawEmbedding_pos h
  have hmagpos : 0 < rawMagnitude text := Real.sqrt_pos.mpr hpos
  have hmagne : rawMagnitude text ≠ 0 := ne_of_gt hmagpos
  have hdef : createPlaceholderEmbedding text =
      (rawEmbedding text).map fun v => v / rawMagnitude text := by
    unfold createPlaceholderEmbedding
    simp [hmagne]
  rw [hdef, normSqR_map_div]
  rw [show rawMagnitude text * rawMagnitude text = normSqR (rawEmbedding text) from
    Real.mul_self_sqrt (normSqR_nonneg _)]
  exact div_self (ne_of_gt hpos)

theorem length_createPlaceholderEmbedding (text : String) :
    (createPlaceholderEmbedding text).length = 384 := by
  simp [createPlaceholderEmbedding, rawEmbedding]

theorem findIndex_eq_some {p : α → Bool} {l : List α} {i : ℕ}
    (h : findIndex p l = some i) :
    i < l.length ∧ ∃ x, l[i]? = some x ∧ p x = true := by
  induction l generalizing i with
  | nil => simp [findIndex] at h
  | cons x xs ih =>
    by_cases hp : p x
    · simp [findIndex, hp] at h
      subst h
      exact ⟨by simp, x, by simp, hp⟩
    · simp [findIndex, hp] at h
      rcases h with ⟨j, hj, rfl⟩
      rcases ih hj with ⟨hlt, y, hy, hpy⟩
      exact ⟨by simpa using Nat.succ_lt_succ hlt, y, by simpa using hy, hpy⟩

/-- Slicing decomposition: the before-slice, the matched element and the
after-slice of `rememberConversationWithContext` form one contiguous block of
the underlying list. -/
theorem decompose_slices {l : List α} {s idx e : ℕ} {m : α}
    (hs : s ≤ idx) (hie : idx ≤ e) (hm : l[idx]? = some m) :
    ∃ pre post,
      l = pre ++ ((l.drop s).take (idx - s) ++ [m] ++
        (l.drop (idx + 1)).take (e + 1 - (idx + 1))) ++ post := by
  have hlt : idx < l.length := (List.getElem?_eq_some.mp hm).1
  have hget : l[idx] = m := by
    rcases List.getElem?_eq_some.mp hm with ⟨h', e'⟩
    simpa using e'
  have hd : l.drop idx = m :: l.drop (idx + 1) := by
    rw [List.drop_eq_getElem_cons hlt, hget]
  have h1 : [m] ++ (l.drop (idx + 1)).take (e + 1 - (idx + 1)) =
      (l.drop idx).take (e + 1 - idx) := by
    rw [hd]
    have he1 : e + 1 - idx = (e + 1 - (idx + 1)) + 1 := by omega
    rw [he1, List.take_succ_cons]
    rfl
  have h2 : (l.drop s).take (idx - s) ++ (l.drop idx).take (e + 1 - idx) =
      (l.drop s).take ((idx - s) + (e + 1 - idx)) := by
    rw [List.take_add]
    congr 1
    rw [List.drop_drop]
    have hss : s + (idx - s) = idx := by omega
    rw [hss]
  refine ⟨l.take s, (l.drop s).drop ((idx - s) + (e + 1 - idx)), ?_⟩
  rw [List.append_assoc _ [m], h1, h2, List.append_assoc,
    List.take_append_drop, List.take_append_drop]

theorem findIndex_eq_none {p : α → Bool} {l : List α}
    (h : ∀ x ∈ l, p x = false) : findIndex p l = none := by
  induction l with
  | nil => rfl
  | cons x xs ih =>
    have hx := h x (by simp)
    simp [findIndex, hx, ih fun y hy => h y (by simp [hy])]

/-- A successful `getConversationByReference` returns the matched
conversation's full ordered message list, and any reported matched index is in
bounds. -/
theorem getConversationByReference_spec {embed : String → List ℚ} {st : MCPState}
    {q : String} {r : RefResult} (h : getConversationByReference embed st q = some r) :
    r.messages = getMessagesByConversation st.db r.conversation.conversation_id ∧
      ∀ idx, r.matchedMessageIndex = some idx → idx < r.messages.length := by
  unfold getConversationByReference at h
  cases hf : findSimilarMessages embed st.db q 1 with
  | nil => rw [hf] at h; exact absurd h (by simp)
  | cons top rest =>
    rw [hf] at h
    dsimp only at h
    cases hc : getConversation st.db top.1.conversation_id with
    | none => rw [hc] at h; exact absurd h (by simp)
    | some conv =>
      rw [hc] at h
      have hcid : conv.conversation_id = top.1.conversation_id := by
        have := List.find?_some hc
        simpa using this
      have hr := Option.some.inj h
      subst hr
      constructor
      · dsimp only
        rw [hcid]
      · intro idx hidx
        dsimp only at hidx ⊢
        exact (findIndex_eq_some hidx).1

/-! ## Claim theorems -/

/-- C1 (amended): for every store state, query vector and limit,
`searchSimilarMessages` returns at most `limit` results, ordered by descending
cosine-similarity score with NULL scores last.  The original claim's tie-break
("equal scores ordered by most-recent timestamp first") does not hold: the SQL
is `ORDER BY similarity DESC LIMIT ?` with no secondary sort key, so
equal-scored rows keep their stored order (`claim_C1_counterexample`). -/
theorem claim_C1_search_sorted_and_limited (messages : List Message)
    (embedding : List ℚ) (limit : Nat) :
    (searchSimilarMessages messages embedding limit).length ≤ limit ∧
      (searchSimilarMessages messages embedding limit).Pairwise
        fun r1 r2 => scoreRel r1.2 r2.2 :=
  ⟨searchSimilarMessages_length_le messages embedding limit,
   searchSimilarMessages_pairwise messages embedding limit⟩

/-- C1 (counterexample): two messages with identical embeddings score
identically, yet the search returns the OLDER one (timestamp 0) before the
newer one (timestamp 1) — the stored order — contradicting the claimed
"more recent timestamp first" tie-break. -/
theorem claim_C1_counterexample :
    (searchSimilarMessages
      [{ message_id := "m1", conversation_id := "c1", timestamp := 0, role := Role.user,
         content := "first", metadata := [], embedding := some [1] },
       { message_id := "m2", conversation_id := "c1", timestamp := 1, role := Role.user,
         content := "second", metadata := [], embedding := some [1] }] [1] 2).map
      (fun r => (r.1.message_id, r.1.timestamp, r.2)) =
    [("m1", 0, some { dot := 1, na := 1, nb := 1, na_pos := one_pos, nb_pos := one_pos }),
     ("m2", 1, some { dot := 1, na := 1, nb := 1, na_pos := one_pos, nb_pos := one_pos })] := by
  norm_num [searchSimilarMessages, cosine_similarity, sumSq, sortBy, insertOrd, rowLe, simGe]

/-- C3 (amended): `createMessage` performs no conversation-existence check at
the store boundary: for every state — whether or not `conversationId` names an
existing conversation — the message row is appended unconditionally and the
generated id is returned.  Referential integrity is deferred to the underlying
database (FOREIGN KEY), contradicting the claimed store-boundary
`ReferenceError`. -/
theorem claim_C3_create_message_unchecked (st : DBState) (cid : String) (role : Role)
    (content : String) (md : List (String × String)) (emb : Option (List ℚ)) :
    (createMessage st cid role content md emb).2.messages =
      st.messages ++
        [{ message_id := "uuid-" ++ toString st.nextId, conversation_id := cid
           timestamp := st.clock, role := role, content := content
           metadata := md, embedding := emb }] ∧
      (createMessage st cid role content md emb).1 = "uuid-" ++ toString st.nextId :=
  ⟨rfl, rfl⟩

/-- C3 (counterexample): on a store with NO conversations at all,
`createMessage` for the nonexistent conversation id `"no-such-conversation"`
does not fail — it returns the generated id and a message row IS inserted. -/
theorem claim_C3_counterexample :
    (createMessage { conversations := [], messages := [], nextId := 0, clock := 0 }
        "no-such-conversation" Role.user "hello" [] none).2.messages =
      [{ message_id := "uuid-0", conversation_id := "no-such-conversation", timestamp := 0
         role := Role.user, content := "hello", metadata := [], embedding := none }] := rfl

/-- C9: every row returned by `searchSimilarMessages` comes from a message
with a non-null embedding — the `WHERE m.embedding IS NOT NULL` filter; a
message whose embedding has not been set is never returned. -/
theorem claim_C9_search_requires_embedding (messages : List Message)
    (embedding : List ℚ) (limit : Nat) (r : Message × Option SimScore)
    (h : r ∈ searchSimilarMessages messages embedding limit) :
    r.1.embedding.isSome = true :=
  (mem_searchSimilarMessages h).2.1

/-- C9 (witness): instantiation on a one-message store. -/
theorem claim_C9_witness :
    (({ message_id := "m1", conversation_id := "c1", timestamp := 0, role := Role.user,
        content := "first", metadata := [], embedding := some [1] } : Message)).embedding.isSome
      = true :=
  claim_C9_search_requires_embedding
    [{ message_id := "m1", conversation_id := "c1", timestamp := 0, role := Role.user,
       content := "first", metadata := [], embedding := some [1] }] [1] 1
    ({ message_id := "m1", conversation_id := "c1", timestamp := 0, role := Role.user,
       content := "first", metadata := [], embedding := some [1] },
     some { dot := 1, na := 1, nb := 1, na_pos := one_pos, nb_pos := one_pos })
    (by norm_num [searchSimilarMessages, cosine_similarity, sumSq, sortBy, insertOrd])

/-- C2 (amended): a stored all-zero (but non-null) embedding is NOT excluded
from the ranking: the `WHERE` clause only filters NULL embeddings, so the
message still appears among the search results (subject to the limit), and the
cosine expression is evaluated with a zero denominator — which DuckDB maps to
a NULL similarity (`none`), not to an exclusion. -/
theorem claim_C2_zero_norm_ranked (messages : List Message) (q : List ℚ) (lim : Nat)
    (m : Message) (v : List ℚ) (hm : m ∈ messages) (he : m.embedding = some v)
    (hlim : messages.length ≤ lim) :
    (m, cosine_similarity v q) ∈ searchSimilarMessages messages q lim ∧
      (sumSq (v.take (min v.length q.length)) = 0 → cosine_similarity v q = none) := by
  constructor
  · unfold searchSimilarMessages
    have hmf : m ∈ messages.filter (fun m => m.embedding.isSome) :=
      List.mem_filter.mpr ⟨hm, by simp [he]⟩
    have hrow : (m, cosine_similarity v q) ∈
        (messages.filter fun m => m.embedding.isSome).map (fun m =>
          (m, match m.embedding with
              | some e => cosine_similarity e q
              | none => none)) :=
      List.mem_map.mpr ⟨m, hmf, by simp [he]⟩
    have hsorted := (sortBy_perm rowLe _).mem_iff.mpr hrow
    have hlen : (sortBy rowLe ((messages.filter fun m => m.embedding.isSome).map fun m =>
        (m, match m.embedding with
            | some e => cosine_similarity e q
            | none => none))).length ≤ lim := by
      rw [(sortBy_perm rowLe _).length_eq]
      calc ((messages.filter fun m => m.embedding.isSome).map _).length
          = (messages.filter fun m => m.embedding.isSome).length := List.length_map _ _
        _ ≤ messages.length := List.length_filter_le _ _
        _ ≤ lim := hlim
    rw [List.take_of_length_le hlen]
    exact hsorted
  · intro h0
    rw [cosine_similarity_none_iff]
    exact Or.inl h0

/-- C2 (counterexample): a message whose stored embedding is the zero vector
`[0]` is returned by the search (with NULL similarity), not excluded from the
ranking, against a nonzero query vector. -/
theorem claim_C2_counterexample :
    searchSimilarMessages
      [{ message_id := "mz", conversation_id := "c1", timestamp := 0, role := Role.user,
         content := "zero", metadata := [], embedding := some [0] }] [1] 5 =
    [({ message_id := "mz", conversation_id := "c1", timestamp := 0, role := Role.user,
        content := "zero", metadata := [], embedding := some [0] }, none)] := by
  norm_num [searchSimilarMessages, cosine_similarity, sumSq, sortBy, insertOrd]

/-- C2 (witness): the zero-norm pair is ranked with NULL score on a concrete
one-message store. -/
theorem claim_C2_witness :
    (({ message_id := "mz", conversation_id := "c1", timestamp := 0, role := Role.user,
        content := "zero", metadata := [], embedding := some [0] } : Message),
      cosine_similarity [0] [1]) ∈
      searchSimilarMessages
        [{ message_id := "mz", conversation_id := "c1", timestamp := 0, role := Role.user,
           content := "zero", metadata := [], embedding := some [0] }] [1] 1 ∧
      cosine_similarity [0] [1] = none := by
  have h := claim_C2_zero_norm_ranked
    [{ message_id := "mz", conversation_id := "c1", timestamp := 0, role := Role.user,
       content := "zero", metadata := [], embedding := some [0] }] [1] 1
    { message_id := "mz", conversation_id := "c1", timestamp := 0, role := Role.user,
      content := "zero", metadata := [], embedding := some [0] } [0]
    (by simp) rfl (by simp)
  exact ⟨h.1, h.2 (by norm_num [sumSq])⟩

/-- C10: the installed `cosine_similarity` accepts vectors of different
lengths: its value only depends on the common prefix of length
`min (length a) (length b)` (first conjunct), and a mismatched-length pair
still yields a score whenever both prefix norms are nonzero (second
conjunct). -/
theorem claim_C10_min_length_components (a b : List ℚ) :
    cosine_similarity a b =
      cosine_similarity (a.take (min a.length b.length))
        (b.take (min a.length b.length)) ∧
      (0 < sumSq (a.take (min a.length b.length)) →
        0 < sumSq (b.take (min a.length b.length)) →
        (cosine_similarity a b).isSome = true) := by
  constructor
  · have hn' : min (a.take (min a.length b.length)).length
        (b.take (min a.length b.length)).length = min a.length b.length := by
      simp [List.length_take]
    unfold cosine_similarity
    dsimp only
    simp only [hn', List.take_take, min_self]
  · intro h1 h2
    unfold cosine_similarity
    dsimp only
    rw [dif_pos ⟨h1, h2⟩]
    rfl

/-- C10 (witness): a 3-dimensional stored vector scored against a
1-dimensional query reduces to the 1-dimensional common prefix and still
yields a score. -/
theorem claim_C10_witness :
    cosine_similarity [1, 2, 3] [2] = cosine_similarity [1] [2] ∧
      (cosine_similarity [1, 2, 3] [2]).isSome = true := by
  have h := claim_C10_min_length_components [1, 2, 3] [2]
  refine ⟨?_, h.2 (by norm_num [sumSq]) (by norm_num [sumSq])⟩
  simpa using h.1

/-- C4: whenever `rememberConversationWithContext` returns a result, both
context slices are bounded by the window size, and
`beforeContext ++ [matchedMessage] ++ afterContext` is one contiguous,
order-preserving block of the matched conversation's full ordered message list
(no padding, no wraparound, no cross-conversation bleed). -/
theorem claim_C4_context_window_invariant (embed : String → List ℚ) (st : MCPState)
    (query : String) (w : Nat) (r : ContextResult)
    (h : rememberConversationWithContext embed st query w = some r) :
    r.beforeContext.length ≤ w ∧ r.afterContext.length ≤ w ∧
      ∃ pre post,
        getMessagesByConversation st.db r.conversation.conversation_id =
          pre ++ (r.beforeContext ++ [r.matchedMessage] ++ r.afterContext) ++ post := by
  unfold rememberConversationWithContext at h
  cases hg : getConversationByReference embed st query with
  | none => rw [hg] at h; exact absurd h (by simp)
  | some rr =>
    rw [hg] at h
    dsimp only at h
    cases hidx : rr.matchedMessageIndex with
    | none => rw [hidx] at h; exact absurd h (by simp)
    | some idx =>
      rw [hidx] at h
      dsimp only at h
      cases hm : rr.messages[idx]? with
      | none => rw [hm] at h; exact absurd h (by simp)
      | some matched =>
        rw [hm] at h
        dsimp only at h
        have hr := Option.some.inj h
        subst hr
        rcases getConversationByReference_spec hg with ⟨hmsgs, hbound⟩
        have hlt : idx < rr.messages.length := hbound idx hidx
        refine ⟨?_, ?_, ?_⟩
        · dsimp only
          simp only [List.length_take, List.length_drop]
          omega
        · dsimp only
          simp only [List.length_take, List.length_drop]
          omega
        · dsimp only
          rw [← hmsgs]
          exact decompose_slices (Nat.sub_le idx w)
            (le_min (by omega) (Nat.le_add_right idx w)) hm

theorem saveEmbedding_messageConvIds (st : DBState) (mid : String) (e : List ℚ) :
    (saveEmbedding st mid e).messages.map (fun m => m.conversation_id) =
      st.messages.map fun m => m.conversation_id := by
  unfold saveEmbedding
  dsimp only
  rw [List.map_map]
  exact List.map_congr_left fun m _ => by dsimp only [Function.comp]; split <;> rfl

theorem createMessage_conversationIds (st : DBState) (cid : String) (role : Role)
    (content : String) (md : List (String × String)) (emb : Option (List ℚ)) :
    (createMessage st cid role content md emb).2.conversations.map
        (fun c => c.conversation_id) =
      st.conversations.map fun c => c.conversation_id := by
  unfold createMessage
  dsimp only
  rw [List.map_map]
  exact List.map_congr_left fun c _ => by dsimp only [Function.comp]; split <;> rfl

/-- C6: for a user with no active conversation, `addMessage` (whatever the
role) creates exactly one new conversation — with the deterministic fresh id —
records it as the user's active conversation, and stores the message in it;
a second `addMessage` for the same user (again any role) creates no further
conversation and appends its message to the same conversation id. -/
theorem claim_C6_lazy_conversation_creation (embed : String → List ℚ) (st : MCPState)
    (u : String) (role1 role2 : Role) (c1 c2 : String)
    (md1 md2 : List (String × String)) (ok1 ok2 : Bool)
    (h : List.lookup u st.activeConversations = none) :
    ((addMessage embed st u role1 c1 md1 ok1).2.db.conversations.map
        fun c => c.conversation_id) =
      (st.db.conversations.map fun c => c.conversation_id) ++
        ["uuid-" ++ toString st.db.nextId] ∧
    List.lookup u (addMessage embed st u role1 c1 md1 ok1).2.activeConversations =
      some ("uuid-" ++ toString st.db.nextId) ∧
    ((addMessage embed st u role1 c1 md1 ok1).2.db.messages.map
        fun m => m.conversation_id) =
      (st.db.messages.map fun m => m.conversation_id) ++
        ["uuid-" ++ toString st.db.nextId] ∧
    ((addMessage embed (addMessage embed st u role1 c1 md1 ok1).2 u role2 c2 md2
        ok2).2.db.conversations.map fun c => c.conversation_id) =
      ((addMessage embed st u role1 c1 md1 ok1).2.db.conversations.map
        fun c => c.conversation_id) ∧
    ((addMessage embed (addMessage embed st u role1 c1 md1 ok1).2 u role2 c2 md2
        ok2).2.db.messages.map fun m => m.conversation_id) =
      ((addMessage embed st u role1 c1 md1 ok1).2.db.messages.map
        fun m => m.conversation_id) ++ ["uuid-" ++ toString st.db.nextId] := by
  have hlk : List.lookup u
      ((addMessage embed st u role1 c1 md1 ok1).2.activeConversations) =
      some ("uuid-" ++ toString st.db.nextId) := by
    unfold addMessage
    rw [h]
    dsimp only [startConversation, setActive]
    cases ok1 <;> simp [List.lookup, createConversation]
  refine ⟨?_, hlk, ?_, ?_, ?_⟩
  · unfold addMessage
    rw [h]
    dsimp only [startConversation, createConversation]
    cases ok1 <;>
      simp [saveEmbedding, createMessage_conversationIds, createMessage, List.map_map,
        Function.comp] <;>
      (intro a _; split <;> rfl)
  · unfold addMessage
    rw [h]
    dsimp only [startConversation, createConversation]
    cases ok1 <;>
      simp [saveEmbedding_messageConvIds, createMessage]
  · conv_lhs => rw [addMessage, hlk]
    dsimp only
    cases ok2 <;>
      simp [saveEmbedding, createMessage_conversationIds, createMessage, List.map_map,
        Function.comp] <;>
      (intro a _; split <;> rfl)
  · conv_lhs => rw [addMessage, hlk]
    dsimp only
    cases ok2 <;>
      simp [saveEmbedding_messageConvIds, createMessage]

/-- C8: a failed embedding-generation-and-save step (`embedOk = false`) is
never surfaced: `addMessage` returns exactly the same message id it returns
when embedding succeeds, and the message remains stored — appended to the
store — with no embedding vector. -/
theorem claim_C8_embedding_failure_swallowed (embed : String → List ℚ)
    (st : MCPState) (u : String) (role : Role) (content : String)
    (md : List (String × String)) :
    (addMessage embed st u role content md false).1 =
      (addMessage embed st u role content md true).1 ∧
    ∃ m : Message,
      (addMessage embed st u role content md false).2.db.messages =
        st.db.messages ++ [m] ∧
      m.embedding = none ∧
      m.message_id = (addMessage embed st u role content md false).1 := by
  unfold addMessage
  cases hl : List.lookup u st.activeConversations with
  | none =>
    dsimp only [startConversation, createConversation, createMessage]
    exact ⟨rfl, _, rfl, rfl, rfl⟩
  | some cid =>
    dsimp only [createMessage]
    exact ⟨rfl, _, rfl, rfl, rfl⟩

/-- C7: the "not found" paths of reference retrieval all yield explicit
absent results and never throw (every modelled function is total):
an empty similarity result gives `none`; a missing owning conversation gives
`none`; a matched message id absent from the reloaded list is reported as an
absent index; and an absent index makes `rememberConversationWithContext`
return `none`. -/
theorem claim_C7_not_found_paths (embed : String → List ℚ) (st : MCPState)
    (q : String) (w : Nat) :
    (findSimilarMessages embed st.db q 1 = [] →
      getConversationByReference embed st q = none) ∧
    (∀ top rest, findSimilarMessages embed st.db q 1 = top :: rest →
      getConversation st.db top.1.conversation_id = none →
      getConversationByReference embed st q = none) ∧
    (∀ top rest conv, findSimilarMessages embed st.db q 1 = top :: rest →
      getConversation st.db top.1.conversation_id = some conv →
      (∀ m ∈ getMessagesByConversation st.db top.1.conversation_id,
        ¬(m.message_id = top.1.message_id)) →
      getConversationByReference embed st q =
        some { conversation := conv
               messages := getMessagesByConversation st.db top.1.conversation_id
               matchedMessageIndex := none }) ∧
    (∀ r, getConversationByReference embed st q = some r →
      r.matchedMessageIndex = none →
      rememberConversationWithContext embed st q w = none) := by
  refine ⟨?_, ?_, ?_, ?_⟩
  · intro h
    unfold getConversationByReference
    rw [h]
  · intro top rest h hc
    unfold getConversationByReference
    rw [h]
    dsimp only
    rw [hc]
  · intro top rest conv h hc hnone
    unfold getConversationByReference
    rw [h]
    dsimp only
    rw [hc]
    have hfi : findIndex (fun msg => msg.message_id = top.1.message_id)
        (getMessagesByConversation st.db top.1.conversation_id) = none :=
      findIndex_eq_none fun m hm => decide_eq_false (hnone m hm)
    rw [hfi]
  · intro r hr hidx
    unfold rememberConversationWithContext
    rw [hr]
    dsimp only
    rw [hidx]

/-- C5 (amended): every placeholder embedding has exactly 384 real entries,
and is exactly L2-normalized whenever the string hash is nonzero; for a text
hashing to 0 (such as the empty string, see `claim_C5_counterexample`) the
raw vector is all-zero and the `magnitude || 1` guard leaves it unnormalized
with norm 0. -/
theorem claim_C5_embedding_dimension_and_norm (text : String) :
    (generateEmbedding text).length = 384 ∧
      (simpleHash text ≠ 0 → normSqR (generateEmbedding text) = 1) :=
  ⟨length_createPlaceholderEmbedding text,
   fun h => normSqR_createPlaceholderEmbedding h⟩

set_option maxRecDepth 4000 in
/-- C5 (counterexample): the empty string hashes to 0, so its "embedding" is
the zero vector — squared L2 norm 0, not approximately 1. -/
theorem claim_C5_counterexample :
    normSqR (generateEmbedding "") = 0 ∧ (0 : ℝ) ≠ 1 := by
  constructor
  · have h0 : simpleHash "" = 0 := by decide
    simp [generateEmbedding, createPlaceholderEmbedding, rawEmbedding, normSqR, h0]
  · norm_num

/-- C5 (witness): the one-letter text `"a"` has nonzero hash and a normalized
embedding. -/
theorem claim_C5_witness :
    simpleHash "a" ≠ 0 ∧ normSqR (generateEmbedding "a") = 1 :=
  ⟨by decide, (claim_C5_embedding_dimension_and_norm "a").2 (by decide)⟩

/-- C4 (witness): a one-conversation, one-message store on which
`rememberConversationWithContext` succeeds with window size 1 and empty
context slices. -/
theorem claim_C4_witness :
    rememberConversationWithContext (fun _ => [1])
      { db :=
          { conversations := [{ conversation_id := "c1", title := "t", created_at := 0,
                                updated_at := 0, metadata := [] }]
            messages := [{ message_id := "m1", conversation_id := "c1", timestamp := 0,
                           role := Role.user, content := "hello", metadata := [],
                           embedding := some [1] }]
            nextId := 0, clock := 0 }
        activeConversations := [] } "q" 1 =
      some { conversation := { conversation_id := "c1", title := "t", created_at := 0,
                               updated_at := 0, metadata := [] }
             messages := [{ message_id := "m1", conversation_id := "c1", timestamp := 0,
                            role := Role.user, content := "hello", metadata := [],
                            embedding := some [1] }]
             beforeContext := [], afterContext := []
             matchedMessage := { message_id := "m1", conversation_id := "c1", timestamp := 0,
                                 role := Role.user, content := "hello", metadata := [],
                                 embedding := some [1] } } ∧
    (([] : List Message).length ≤ 1 ∧ (([] : List Message)).length ≤ 1 ∧
      ∃ pre post,
        getMessagesByConversation
          { conversations := [{ conversation_id := "c1", title := "t", created_at := 0,
                                updated_at := 0, metadata := [] }]
            messages := [{ message_id := "m1", conversation_id := "c1", timestamp := 0,
                           role := Role.user, content := "hello", metadata := [],
                           embedding := some [1] }]
            nextId := 0, clock := 0 } "c1" =
          pre ++ ([] ++ [{ message_id := "m1", conversation_id := "c1", timestamp := 0,
                           role := Role.user, content := "hello", metadata := [],
                           embedding := some [1] }] ++ []) ++ post) := by
  have h : rememberConversationWithContext (fun _ => [1])
      { db :=
          { conversations := [{ conversation_id := "c1", title := "t", created_at := 0,
                                updated_at := 0, metadata := [] }]
            messages := [{ message_id := "m1", conversation_id := "c1", timestamp := 0,
                           role := Role.user, content := "hello", metadata := [],
                           embedding := some [1] }]
            nextId := 0, clock := 0 }
        activeConversations := [] } "q" 1 =
      some { conversation := { conversation_id := "c1", title := "t", created_at := 0,
                               updated_at := 0, metadata := [] }
             messages := [{ message_id := "m1", conversation_id := "c1", timestamp := 0,
                            role := Role.user, content := "hello", metadata := [],
                            embedding := some [1] }]
             beforeContext := [], afterContext := []
             matchedMessage := { message_id := "m1", conversation_id := "c1", timestamp := 0,
                                 role := Role.user, content := "hello", metadata := [],
                                 embedding := some [1] } } := by
    norm_num [rememberConversationWithContext, getConversationByReference,
      findSimilarMessages, searchSimilarMessages, cosine_similarity, sumSq, sortBy,
      insertOrd, rowLe, simGe, getConversation, getMessagesByConversation, findIndex]
  refine ⟨h, ?_⟩
  simpa using claim_C4_context_window_invariant (fun _ => [1]) _ "q" 1 _ h

/-- C6 (witness): on an empty store, a first `addMessage` for user `"u1"`
records the freshly created conversation as active. -/
theorem claim_C6_witness :
    List.lookup "u1" ([] : List (String × String)) = none ∧
    List.lookup "u1"
      (addMessage (fun _ => [])
        { db := { conversations := [], messages := [], nextId := 0, clock := 0 }
          activeConversations := [] } "u1" Role.user "hi" [] true).2.activeConversations =
      some ("uuid-" ++ toString (0 : ℕ)) :=
  ⟨rfl,
   (claim_C6_lazy_conversation_creation (fun _ => [])
      { db := { conversations := [], messages := [], nextId := 0, clock := 0 }
        activeConversations := [] } "u1" Role.user Role.assistant "hi" "yo" [] []
      true true rfl).2.1⟩

/-- C7 (witness): against an empty store the reference search yields `none`,
and against a store whose only message belongs to a deleted (absent)
conversation it also yields `none`. -/
theorem claim_C7_witness :
    getConversationByReference (fun _ => [1])
      { db := { conversations := [], messages := [], nextId := 0, clock := 0 }
        activeConversations := [] } "q" = none ∧
    getConversationByReference (fun _ => [1])
      { db :=
          { conversations := []
            messages := [{ message_id := "m1", conversation_id := "c1", timestamp := 0,
                           role := Role.user, content := "hello", metadata := [],
                           embedding := some [1] }]
            nextId := 0, clock := 0 }
        activeConversations := [] } "q" = none := by
  constructor
  · exact (claim_C7_not_found_paths (fun _ => [1])
      { db := { conversations := [], messages := [], nextId := 0, clock := 0 }
        activeConversations := [] } "q" 0).1 rfl
  · exact (claim_C7_not_found_paths (fun _ => [1])
      { db :=
          { conversations := []
            messages := [{ message_id := "m1", conversation_id := "c1", timestamp := 0,
                           role := Role.user, content := "hello", metadata := [],
                           embedding := some [1] }]
            nextId := 0, clock := 0 }
        activeConversations := [] } "q" 0).2.1
      ({ message_id := "m1", conversation_id := "c1", timestamp := 0,
         role := Role.user, content := "hello", metadata := [], embedding := some [1] },
       some { dot := 1, na := 1, nb := 1, na_pos := one_pos, nb_pos := one_pos }) []
      (by norm_num [findSimilarMessages, searchSimilarMessages, cosine_similarity,
        sumSq, sortBy, insertOrd]) rfl

end TinyMemory
